import Mathlib

/-!
Verification of the DOCX-to-Org transformation engine of this repository
(`docx_to_org_enhanced/docx_to_org_complete.py`, class `DocxToOrgCompleteConverter`,
plus `detect_heading_level` of `docx_to_org_enhanced.py`).

The document-model collaborator (python-docx) is out of scope per the spec: a
paragraph is modelled by the attributes the converter reads from it (runs with
text / bold flag / footnote-reference ids, centered alignment, style name, style
indent level, raw numbering properties), and the notes sub-parts by the note
elements the extractor iterates.  All functions below are transcribed from the
Python source; definitions whose doc comment says "spec wording" restate a spec
sentence instead and are compared against the transcriptions by theorem.
-/

namespace DocxOrg

/-! ### String helpers modelling the Python primitives

Python's `str.strip`, `str.lower`, substring tests and `''.join` are modelled on
the character list underlying `String`, so that every definition evaluates by
kernel reduction.  `Char.isWhitespace` (space, tab, CR, LF) stands in for
Python's whitespace class. -/

/-- `str.strip()`: drop leading and trailing whitespace. -/
def trimStr (s : String) : String :=
  ⟨((s.data.dropWhile Char.isWhitespace).reverse.dropWhile Char.isWhitespace).reverse⟩

/-- `str.lower()` (ASCII case folding; the converter only compares ASCII style names). -/
def lowerStr (s : String) : String :=
  ⟨s.data.map Char.toLower⟩

/-- `''.join(parts)`. -/
def joinStr (l : List String) : String :=
  l.foldl (fun r s => r ++ s) ""

/-- Whether `pat` is a prefix of `s` (character lists). -/
def leadsChars : List Char → List Char → Bool
  | [], _ => true
  | _ :: _, [] => false
  | p :: ps, c :: cs => p = c && leadsChars ps cs

/-- Whether `pat` occurs in `s` (character lists), as Python's `pat in s`. -/
def containsChars (pat : List Char) : List Char → Bool
  | [] => leadsChars pat []
  | c :: cs => leadsChars pat (c :: cs) || containsChars pat cs

/-- Python's substring test `pat in s`. -/
def substrB (pat s : String) : Bool :=
  containsChars pat.data s.data

/-- Whether `suf` is a suffix of `s`, as Python's `str.endswith`. -/
def endsWithStr (s suf : String) : Bool :=
  leadsChars suf.data.reverse s.data.reverse

/-- The character of a decimal digit. -/
def digitChar : Nat → Char
  | 0 => '0' | 1 => '1' | 2 => '2' | 3 => '3' | 4 => '4'
  | 5 => '5' | 6 => '6' | 7 => '7' | 8 => '8' | _ => '9'

/-- Decimal digits of a natural number, most significant first; the first
argument is recursion fuel (any value at least the digit count works). -/
def natDigitsAux : Nat → Nat → List Char
  | 0, _ => []
  | fuel + 1, n =>
    if n < 10 then [digitChar n]
    else natDigitsAux fuel (n / 10) ++ [digitChar (n % 10)]

/-- Python's `str(n)` / `f"{n}"` for a natural number. -/
def natToStr (n : Nat) : String :=
  ⟨natDigitsAux (n + 1) n⟩

/-! ### Data model (spec section 6: what the converter reads from the collaborator) -/

/-- One inline run: its text, its (effective) bold flag, and the `w:id`
attributes of the note-reference elements found in its XML, in document order
(`None` when the attribute is absent) — `footnoteRefIds` for the
`w:footnoteReference` elements and `endnoteRefIds` for the
`w:endnoteReference` elements.  The resolver's `findall` names only
`.//w:footnoteReference`, so nothing in the converter ever reads
`endnoteRefIds`; the field is in the model because endnote records do enter
the footnote table and the spec's note-reference markers cover both kinds. -/
structure Run where
  text : String
  bold : Bool
  footnoteRefIds : List (Option String)
  endnoteRefIds : List (Option String)
deriving DecidableEq

/-- The paragraph-level `w:numPr` numbering properties: the `w:ilvl` value when
present (the source reads the attribute as a string defaulting to `'0'` and
converts with `int`), and whether a `w:numId` element is present. -/
structure NumPr where
  ilvl : Option Nat
  hasNumId : Bool
deriving DecidableEq

/-- A paragraph as the converter reads it: runs, centered alignment
(`is_centered`; an unreadable alignment reads as `false`), the style name, the
`w:ilvl` found on the style's XML if any, and the paragraph's `w:numPr` if any. -/
structure Paragraph where
  runs : List Run
  centered : Bool
  styleName : String
  styleIlvl : Option Nat
  numPr : Option NumPr
deriving DecidableEq

/-- `paragraph.text`: the concatenated run text. -/
def Paragraph.text (p : Paragraph) : String :=
  joinStr (p.runs.map (fun r => r.text))

/-- A footnote/endnote record as built by extraction: source id and flattened text. -/
structure FRecord where
  id : String
  text : String
deriving DecidableEq

/-- A note element of a footnotes/endnotes part: its `w:id` attribute, the texts
of its `w:t` descendants in document order, and a flag modelling a note whose
text extraction raises inside `_extract_text_from_footnote_element` (the
function's bare `except` turns any such failure into the empty string). -/
structure NoteElem where
  id : Option String
  tTexts : List String
  textBroken : Bool
deriving DecidableEq

/-- How one access path to a notes sub-part behaves: the part is not exposed
(`absent`: `part_related_by` finds nothing or raises, caught with a warning),
its blob does not parse (`broken`: `ET.fromstring` raises, caught with a
warning), or it parses into a list of note elements. -/
inductive PartFetch where
  | absent
  | broken
  | notes (ns : List NoteElem)
deriving DecidableEq

/-- Relationship type of an entry of `doc._part.rels` (the second access path). -/
inductive RelType where
  | footnotes
  | endnotes
  | other
deriving DecidableEq

/-- The target of a relationship: its blob parses into note elements or raising. -/
inductive RelPart where
  | broken
  | notes (ns : List NoteElem)
deriving DecidableEq

/-- One relationship of `doc._part.rels`, in iteration order. -/
structure Rel where
  reltype : RelType
  part : RelPart
deriving DecidableEq

/-- A document as the converter reads it: the footnotes and endnotes parts as
reachable through `document_part.package.part_related_by` (method 1), the
relationship list of `doc._part.rels` (method 2), and the paragraphs. -/
structure Document where
  fnPart : PartFetch
  enPart : PartFetch
  rels : List Rel
  paragraphs : List Paragraph
deriving DecidableEq

/-- List kind, `'ordered'` / `'unordered'` in the source. -/
inductive ListKind where
  | ordered
  | unordered
deriving DecidableEq

/-- The converter's cross-paragraph list state: `self.list_depth_stack` and
`self.list_item_counters`. -/
structure ListState where
  depth : List ListKind
  counters : List Nat
deriving DecidableEq

/-- The state both stacks start from (`__init__` / the per-document reset). -/
def initListState : ListState := ⟨[], []⟩

/-! ### Footnote/endnote extraction
(`extract_footnotes_from_xml`, `_extract_text_from_footnote_element`) -/

/-- `_extract_text_from_footnote_element`: concatenate the texts of the note's
`w:t` descendants; its bare `except` returns `""` on any failure. -/
def extractNoteText (n : NoteElem) : String :=
  if n.textBroken then "" else joinStr n.tTexts

/-- The per-note body of the extraction loops: skip a missing/empty id and the
reserved id `'0'`, skip a note whose stripped text is empty, otherwise record
`(id, stripped text)`.  The loop appends to `self.footnotes` in source order. -/
def processNoteList : List NoteElem → List FRecord
  | [] => []
  | n :: rest =>
    (match n.id with
     | some i =>
       if i ≠ "" ∧ i ≠ "0" then
         let t := extractNoteText n
         if trimStr t ≠ "" then [⟨i, trimStr t⟩] else []
       else []
     | none => []) ++ processNoteList rest

/-- Method 1 access to one notes part: an absent part (lookup found nothing or
raised) and an unparsable blob both end in that block's `except`, contributing
nothing beyond a printed warning. -/
def method1Part : PartFetch → List FRecord
  | PartFetch.absent => []
  | PartFetch.broken => []
  | PartFetch.notes ns => processNoteList ns

/-- Method 2: walk `doc._part.rels` in order; a footnotes/endnotes relationship
contributes its part's records.  The whole walk sits in one `try`, so an
unparsable blob aborts the remaining relationships (not just the current one). -/
def method2Rels : List Rel → List FRecord
  | [] => []
  | r :: rest =>
    match r.reltype, r.part with
    | RelType.footnotes, RelPart.notes ns => processNoteList ns ++ method2Rels rest
    | RelType.footnotes, RelPart.broken => []
    | RelType.endnotes, RelPart.notes ns => processNoteList ns ++ method2Rels rest
    | RelType.endnotes, RelPart.broken => []
    | RelType.other, _ => method2Rels rest

/-- `extract_footnotes_from_xml`: method 1 (footnotes part then endnotes part),
then method 2 over the relationship list, all appending to `self.footnotes`. -/
def extract_footnotes_from_xml (d : Document) : List FRecord :=
  method1Part d.fnPart ++ method1Part d.enPart ++ method2Rels d.rels

/-! ### Reference resolver (`find_footnote_references_in_paragraph`) -/

/-- The linear scan `for i, fn in enumerate(self.footnotes): if fn['id'] == ref_id`,
returning the 1-based `i + 1` of the first match. -/
def findFootnoteNumAux (rid : String) : List FRecord → Nat → Option Nat
  | [], _ => none
  | fn :: rest, i => if fn.id = rid then some (i + 1) else findFootnoteNumAux rid rest (i + 1)

/-- 1-based output number of the first record whose id is `rid`, if any. -/
def findFootnoteNum (fns : List FRecord) (rid : String) : Option Nat :=
  findFootnoteNumAux rid fns 0

/-- The tokens contributed by one run: for each `w:footnoteReference` with a
truthy id that resolves in the table, the pair `(run_idx, "[fn:N]")`;
unresolved or id-less references are dropped. -/
def runRefTokens (fns : List FRecord) (idx : Nat) (r : Run) : List (Nat × String) :=
  r.footnoteRefIds.filterMap (fun oid =>
    match oid with
    | none => none
    | some rid =>
      if rid = "" then none
      else
        match findFootnoteNum fns rid with
        | none => none
        | some n => some (idx, "[fn:" ++ natToStr n ++ "]"))

/-- `find_footnote_references_in_paragraph`: all runs' tokens in run order. -/
def find_footnote_references_in_paragraph (fns : List FRecord) (p : Paragraph) :
    List (Nat × String) :=
  (p.runs.enum.map (fun ir => runRefTokens fns ir.1 ir.2)).flatten

/-- `_process_text_with_footnotes`: with no references, the paragraph text; else
each run's text followed by its reference tokens in the order found. -/
def process_text_with_footnotes (fns : List FRecord) (p : Paragraph) : String :=
  let refs := find_footnote_references_in_paragraph fns p
  if refs = [] then p.text
  else
    joinStr (p.runs.enum.map (fun ir =>
      ir.2.text ++ joinStr ((refs.filter (fun t => t.1 = ir.1)).map (fun t => t.2))))

/-! ### Bold segmentation (`extract_bold_portions_with_footnotes`) -/

/-- The dict comprehension `{run_idx: ref for run_idx, ref in footnote_refs}`:
for a repeated key the last pair written wins. -/
def dictLast (refs : List (Nat × String)) (i : Nat) : Option String :=
  ((refs.filter (fun t => t.1 = i)).getLast?).map (fun t => t.2)

/-- The run walk of `extract_bold_portions_with_footnotes`, with its four
accumulators `bold_text`, `regular_text`, `current_bold`, `current_regular`:
flush the opposite accumulator on a bold/non-bold state change, and flush
whatever remains at the end. -/
def boldLoop (refMap : Nat → Option String) :
    List (Nat × Run) → List String → List String → List String → List String →
    List String × List String
  | [], bt, rt, cb, cr =>
    (if cb ≠ [] then bt ++ [joinStr cb] else bt,
     if cr ≠ [] then rt ++ [joinStr cr] else rt)
  | ir :: rest, bt, rt, cb, cr =>
    let runText :=
      match refMap ir.1 with
      | some tok => ir.2.text ++ tok
      | none => ir.2.text
    if ir.2.bold then
      if cr ≠ [] then boldLoop refMap rest bt (rt ++ [joinStr cr]) (cb ++ [runText]) []
      else boldLoop refMap rest bt rt (cb ++ [runText]) cr
    else
      if cb ≠ [] then boldLoop refMap rest (bt ++ [joinStr cb]) rt [] (cr ++ [runText])
      else boldLoop refMap rest bt rt cb (cr ++ [runText])

/-- `extract_bold_portions_with_footnotes`: resolve the references, build the
per-run dict (last reference wins), then walk the runs. -/
def extract_bold_portions_with_footnotes (fns : List FRecord) (p : Paragraph) :
    List String × List String :=
  let refs := find_footnote_references_in_paragraph fns p
  boldLoop (dictLast refs) p.runs.enum [] [] [] []

/-- `has_bold_text`. -/
def has_bold_text (p : Paragraph) : Bool :=
  p.runs.any (fun r => r.bold)

/-! ### List detection and cleaning
(`detect_list_type_and_level`, `clean_list_text`, `get_org_list_prefix`).
Each regex of the source is transcribed as a leading-match-length function:
`some l` means the anchored pattern matches a prefix of length `l` (with the
greedy `\s+` consuming the maximal whitespace run, as `re.sub` would). -/

/-- Length of the leading whitespace run, `none` when empty (`\s+`). -/
def wsLen1 (cs : List Char) : Option Nat :=
  let w := cs.takeWhile Char.isWhitespace
  if w.length = 0 then none else some w.length

/-- `^[cls]\s+` : one character of the class, then whitespace. -/
def charClassWsLen (cls : List Char) (cs : List Char) : Option Nat :=
  match cs with
  | [] => none
  | c :: rest => if cls.contains c then (wsLen1 rest).map (fun l => l + 1) else none

/-- `^p+ sep \s+` : a nonempty run of class `p`, a separator, then whitespace. -/
def runSepWsLen (p : Char → Bool) (sep : Char) (cs : List Char) : Option Nat :=
  let ds := cs.takeWhile p
  if ds.length = 0 then none
  else
    match cs.drop ds.length with
    | [] => none
    | c :: rest =>
      if c = sep then (wsLen1 rest).map (fun l => l + ds.length + 1) else none

/-- `^[cls] sep \s+` : one character of the class, a separator, then whitespace. -/
def oneSepWsLen (p : Char → Bool) (sep : Char) (cs : List Char) : Option Nat :=
  match cs with
  | c :: d :: rest =>
    if p c then (if d = sep then (wsLen1 rest).map (fun l => l + 2) else none) else none
  | _ => none

/-- `r'^[•·▪▫‣⁃]\s+'`. -/
def bulletPat1 : List Char → Option Nat := charClassWsLen ['•', '·', '▪', '▫', '‣', '⁃']

/-- `r'^[o*+−-]\s+'` (the fourth glyph is U+2212 minus). -/
def bulletPat2 : List Char → Option Nat := charClassWsLen ['o', '*', '+', '−', '-']

/-- `r'^[◦◉○●]\s+'`. -/
def bulletPat3 : List Char → Option Nat := charClassWsLen ['◦', '◉', '○', '●']

/-- `bullet_patterns` of `detect_list_type_and_level`. -/
def bulletPatterns : List (List Char → Option Nat) := [bulletPat1, bulletPat2, bulletPat3]

/-- `[a-zA-Z]` (Python's pattern is ASCII-only here). -/
def isAsciiLetter (c : Char) : Bool :=
  ('a' ≤ c && c ≤ 'z') || ('A' ≤ c && c ≤ 'Z')

/-- `numbered_patterns`, in the source's order: `^\d+\.\s+`, `^\d+\)\s+`,
`^[a-zA-Z]\.\s+`, `^[a-zA-Z]\)\s+`, `^[ivxlIVXL]+\.\s+`, `^[IVXL]+\)\s+`. -/
def numberedPatterns : List (List Char → Option Nat) :=
  [runSepWsLen Char.isDigit '.', runSepWsLen Char.isDigit ')',
   oneSepWsLen isAsciiLetter '.', oneSepWsLen isAsciiLetter ')',
   runSepWsLen (fun c => (['i', 'v', 'x', 'l', 'I', 'V', 'X', 'L'] : List Char).contains c) '.',
   runSepWsLen (fun c => (['I', 'V', 'X', 'L'] : List Char).contains c) ')']

/-- Whether any pattern of the family matches (`re.match(pattern, text)`). -/
def matchesAny (pats : List (List Char → Option Nat)) (cs : List Char) : Bool :=
  pats.any (fun pat => (pat cs).isSome)

/-- `re.sub(pattern, '', text)` for one anchored pattern: drop the match. -/
def subLeading (pat : List Char → Option Nat) (s : String) : String :=
  match pat s.data with
  | some l => ⟨s.data.drop l⟩
  | none => s

/-- Fallback level from a style name ending in `" 2"` / `" 3"` when the XML
level is 0 (shared by the bullet and number branches of method 1). -/
def styleNameLevelFallback (styleNameLower : String) (lv : Nat) : Nat :=
  if lv = 0 then
    if endsWithStr styleNameLower " 2" then 1
    else if endsWithStr styleNameLower " 3" then 2
    else 0
  else lv

/-- Methods 2 and 3 of `detect_list_type_and_level`: paragraph `w:numPr`
properties, then the text-pattern fallback on the stripped paragraph text. -/
def detectListMethod23 (p : Paragraph) : Option ListKind × Nat :=
  match p.numPr with
  | some np =>
    if np.hasNumId then (some ListKind.ordered, np.ilvl.getD 0)
    else (some ListKind.unordered, np.ilvl.getD 0)
  | none =>
    let text := trimStr p.text
    if text ≠ "" then
      if matchesAny bulletPatterns text.data then (some ListKind.unordered, 0)
      else if matchesAny numberedPatterns text.data then (some ListKind.ordered, 0)
      else if leadsChars "    ".data text.data || leadsChars "\t".data text.data then
        (some ListKind.unordered, 1)
      else (none, 0)
    else (none, 0)

/-- `detect_list_type_and_level`: method 1 (style name containing `"list"`,
kind from `bullet`/`unordered` vs `number`/`ordered` keywords, level from the
style XML with the name-suffix fallback); a `"list"` style with neither keyword
falls through to methods 2 and 3. -/
def detect_list_type_and_level (p : Paragraph) : Option ListKind × Nat :=
  let style_name := lowerStr p.styleName
  if substrB "list" style_name then
    if substrB "bullet" style_name || substrB "unordered" style_name then
      (some ListKind.unordered, styleNameLevelFallback style_name (p.styleIlvl.getD 0))
    else if substrB "number" style_name || substrB "ordered" style_name then
      (some ListKind.ordered, styleNameLevelFallback style_name (p.styleIlvl.getD 0))
    else detectListMethod23 p
  else detectListMethod23 p

/-- `clean_list_text`: strip, apply the kind's marker patterns in order
(the unordered family repeats `^[•]\s+` as a fourth pattern), strip again. -/
def clean_list_text (text : String) (k : ListKind) : String :=
  let t := trimStr text
  let t :=
    match k with
    | ListKind.unordered =>
      (bulletPatterns ++ [charClassWsLen ['•']]).foldl (fun s pat => subLeading pat s) t
    | ListKind.ordered => numberedPatterns.foldl (fun s pat => subLeading pat s) t
  trimStr t

/-- `get_org_list_prefix`: two-space indent per level; unordered cycles
`- / + / *` by `level % 3`; ordered writes `"{number}. "` (number defaulting
to 1). -/
def get_org_list_prefix (k : ListKind) (level : Nat) (item_number : Option Nat) : String :=
  let indent := joinStr (List.replicate level "  ")
  match k with
  | ListKind.unordered => indent ++ (["-", "+", "*"] : List String).getD (level % 3) "-" ++ " "
  | ListKind.ordered => indent ++ natToStr (item_number.getD 1) ++ ". "

/-! ### The list state machine inside `process_paragraph` -/

/-- The first `while` loop: `while len(self.list_depth_stack) > level + 1`,
popping the tail of both stacks.  The first argument is fuel (the initial depth
length is always enough); the loop condition reads only the depth stack, as in
the source. -/
def popLoop : Nat → List ListKind → List Nat → Nat → List ListKind × List Nat
  | 0, ds, cs, _ => (ds, cs)
  | fuel + 1, ds, cs, n =>
    if ds.length > n then popLoop fuel ds.dropLast cs.dropLast n else (ds, cs)

/-- The second `while` loop: `while len(self.list_depth_stack) < level + 1`,
appending the kind and the counter 1. -/
def growLoop : Nat → List ListKind → List Nat → ListKind → Nat → List ListKind × List Nat
  | 0, ds, cs, _, _ => (ds, cs)
  | fuel + 1, ds, cs, k, n =>
    if ds.length < n then growLoop fuel (ds ++ [k]) (cs ++ [1]) k n else (ds, cs)

/-- The list-item branch of `process_paragraph`, after both `while` loops:
ordered reads `item_counters[level]` as the assigned number and increments it;
unordered resets `item_counters[level]` to 1 under the `level < len` guard and
passes 1 to the prefix (which ignores it).  List indexing out of range cannot
occur when both stacks enter with equal length (the converter's own invariant);
`getD`/`set` make the function total. -/
def listItemLines (st : ListState) (k : ListKind) (level : Nat) (cleaned : String) :
    List String × ListState :=
  let popped := popLoop st.depth.length st.depth st.counters (level + 1)
  let grown := growLoop (level + 1) popped.1 popped.2 k (level + 1)
  match k with
  | ListKind.ordered =>
    let item_number := grown.2.getD level 0
    ([ get_org_list_prefix k level (some item_number) ++ cleaned],
     ⟨grown.1, grown.2.set level (item_number + 1)⟩)
  | ListKind.unordered =>
    ([ get_org_list_prefix k level (some 1) ++ cleaned],
     ⟨grown.1, if level < grown.2.length then grown.2.set level 1 else grown.2⟩)

/-- `process_paragraph`: splice the reference tokens, drop a blank paragraph
unchanged, handle a detected list item through the state machine, and otherwise
clear both stacks and emit centered / bold-segmented / plain lines. -/
def process_paragraph (fns : List FRecord) (st : ListState) (p : Paragraph) :
    List String × ListState :=
  let processed_text := process_text_with_footnotes fns p
  if trimStr processed_text = "" then ([], st)
  else
    match detect_list_type_and_level p with
    | (some k, level) => listItemLines st k level (clean_list_text processed_text k)
    | (none, _) =>
      if p.centered then (["* " ++ trimStr processed_text], initListState)
      else if has_bold_text p then
        let portions := extract_bold_portions_with_footnotes fns p
        ((portions.1.filter (fun b => trimStr b ≠ "")).map (fun b => "** " ++ trimStr b)
          ++ (portions.2.filter (fun r => trimStr r ≠ "")).map (fun r => trimStr r),
         initListState)
      else ([trimStr processed_text], initListState)

/-! ### Whole-document conversion (`convert_docx_to_org`) -/

/-- The paragraph loop of `convert_docx_to_org`: extend `org_content` with each
paragraph's lines, threading the list state. -/
def paragraphFold (fns : List FRecord) (ps : List Paragraph) : List String × ListState :=
  ps.foldl
    (fun acc p =>
      let r := process_paragraph fns acc.2 p
      (acc.1 ++ r.1, r.2))
    ([], initListState)

/-- The footnote definition lines, `f"[fn:{i}] {footnote['text']}"` for
`i = 1..K` in table order. -/
def footnoteDefLines (fns : List FRecord) : List String :=
  fns.enum.map (fun ifn => "[fn:" ++ natToStr (ifn.1 + 1) ++ "] " ++ ifn.2.text)

/-- `convert_docx_to_org` (its content-building part): extraction, the
paragraph loop, and — when the table is non-empty — the blank separator, the
`* Footnotes` heading and one definition line per record. -/
def convert_docx_to_org (d : Document) : List String :=
  let fns := extract_footnotes_from_xml d
  let org := (paragraphFold fns d.paragraphs).1
  if fns ≠ [] then org ++ [""] ++ ["* Footnotes"] ++ footnoteDefLines fns
  else org

/-- The written file: `'\n\n'.join(org_content)`. -/
def convertOutputString (d : Document) : String :=
  String.intercalate "\n\n" (convert_docx_to_org d)

/-! ### Heading level detection (`detect_heading_level` of `docx_to_org_enhanced.py`)

The file `docx_to_org_enhanced.py` as shipped is damaged: line 144 reads
`getattr(paragraph.style, 'style_id', ').lower()` (an unterminated string
literal — the module does not even parse), and the fallback regex on line 169
reads `r'headings*(d+)'`, i.e. the backslashes of the intended
`r'heading\s*(\d+)'` are missing.  The transcription below keeps the literal
regex; the id read is modelled as the evident `getattr(..., '').lower()`. -/

/-- The `heading_map` dict of `detect_heading_level`. -/
def heading_map : List (String × Nat) :=
  [("heading 1", 1), ("heading1", 1), ("heading 2", 2), ("heading2", 2),
   ("heading 3", 3), ("heading3", 3), ("heading 4", 4), ("heading4", 4),
   ("heading 5", 5), ("heading5", 5), ("heading 6", 6), ("heading6", 6),
   ("heading 7", 7), ("heading7", 7), ("heading 8", 8), ("heading8", 8),
   ("heading 9", 9), ("heading9", 9)]

/-- Dict lookup `heading_map[s]` via `s in heading_map`. -/
def headingMapLookup (s : String) : Option Nat :=
  (heading_map.find? (fun kv => kv.1 = s)).map (fun kv => kv.2)

/-- Drop a literal from the head of a character list, or fail. -/
def dropLit : List Char → List Char → Option (List Char)
  | [], cs => some cs
  | _ :: _, [] => none
  | p :: ps, c :: cs => if c = p then dropLit ps cs else none

/-- Whether the damaged pattern `headings*(d+)` matches at the head: the word
`heading`, zero or more `s`, then at least one literal `d`. -/
def corruptHeadingMatchAt (cs : List Char) : Bool :=
  match dropLit "heading".data cs with
  | none => false
  | some rest =>
    match rest.dropWhile (fun c => c = 's') with
    | [] => false
    | c :: _ => c = 'd'

/-- `re.search` of the damaged pattern: a match anywhere in the string. -/
def corruptHeadingSearch : List Char → Bool
  | [] => false
  | c :: cs => corruptHeadingMatchAt (c :: cs) || corruptHeadingSearch cs

/-- `detect_heading_level` as written: lowercase both names, look the style
name then the style id up in `heading_map`, then try the (damaged) regex — a
match captures a run of literal `d` characters, so the `int()` conversion
always raises `ValueError`, lands in the function's `except` and returns 0 —
then map `title`/`subtitle` to 1, else 0. -/
def detect_heading_level (styleName styleId : String) : Nat :=
  let style_name := lowerStr styleName
  let style_id := lowerStr styleId
  match headingMapLookup style_name with
  | some n => n
  | none =>
    match headingMapLookup style_id with
    | some n => n
    | none =>
      if corruptHeadingSearch style_name.data then 0
      else if style_name = "title" ∨ style_name = "subtitle" then 1
      else 0

/-- Value of a run of decimal digits, most significant first. -/
def digitsToNat (ds : List Char) : Nat :=
  ds.foldl (fun acc c => acc * 10 + (c.toNat - 48)) 0

/-- Modelled from the spec: the numeric-suffix fallback of heading detection,
`re.search(r'heading\s*(\d+)', style_name)` — the word `heading`, optional
whitespace, then a captured digit run — matched at the head. -/
def intendedHeadingMatchAt (cs : List Char) : Option Nat :=
  match dropLit "heading".data cs with
  | none => none
  | some rest =>
    let ds := (rest.dropWhile Char.isWhitespace).takeWhile Char.isDigit
    if ds.length = 0 then none else some (digitsToNat ds)

/-- Modelled from the spec: leftmost match of the intended fallback pattern. -/
def intendedHeadingSearch : List Char → Option Nat
  | [] => none
  | c :: cs =>
    match intendedHeadingMatchAt (c :: cs) with
    | some n => some n
    | none => intendedHeadingSearch cs

/-- Modelled from the spec: heading level detection as section 4.3 of the spec
describes it (fixed set, then the numeric-suffix pattern returning its number,
then `title`/`subtitle` as level 1, else 0). -/
def detect_heading_level_spec (styleName styleId : String) : Nat :=
  let style_name := lowerStr styleName
  let style_id := lowerStr styleId
  match headingMapLookup style_name with
  | some n => n
  | none =>
    match headingMapLookup style_id with
    | some n => n
    | none =>
      match intendedHeadingSearch style_name.data with
      | some n => n
      | none => if style_name = "title" ∨ style_name = "subtitle" then 1 else 0

/-! ### Spec-wording definitions used as refinement targets -/

/-- Spec wording (section 4.2, as amended): resolve each run's
footnote-reference markers by the 1-based position of the first matching
record, found with `List.findIdx?`; a miss yields nothing.  A run's
endnote-reference markers are not read — the source inspects only
`w:footnoteReference` elements, which is what C5's correction records. -/
def resolverSpec (fns : List FRecord) (p : Paragraph) : List (Nat × String) :=
  (p.runs.enum.map (fun ir =>
    ir.2.footnoteRefIds.filterMap (fun oid =>
      oid.bind (fun rid =>
        if rid = "" then none
        else (fns.findIdx? (fun fn => fn.id = rid)).map
          (fun j => (ir.1, "[fn:" ++ natToStr (j + 1) ++ "]")))))).flatten

/-- Spec wording (section 4.1, as amended): the record a note element yields —
nothing for a missing/empty/reserved id or a blank extracted text, otherwise
the id with the whitespace-preserving concatenation of its text leaves trimmed
at both ends. -/
def specRecordOfNote (n : NoteElem) : Option FRecord :=
  match n.id with
  | none => none
  | some i =>
    if i = "" ∨ i = "0" then none
    else
      let t := trimStr (extractNoteText n)
      if t = "" then none else some ⟨i, t⟩

/-- Merge one flagged segment onto a chunk list: absorbed into the head chunk
when the flags agree, a new chunk otherwise. -/
def consMergeChunk : Bool × String → List (Bool × String) → List (Bool × String)
  | a, [] => [a]
  | a, b :: rest => if a.1 = b.1 then (a.1, a.2 ++ b.2) :: rest else a :: b :: rest

/-- Spec wording (section 4.3): the maximal groups of consecutive same-boldness
items, each concatenated into one part. -/
def segChunks (l : List (Bool × String)) : List (Bool × String) :=
  l.foldr consMergeChunk []

/-- Spec wording (section 4.3, as amended): bold segmentation — append the
token of the last reference marker found for a run to that run's text, group
consecutive same-boldness runs, and return the bold parts and the regular
parts, each family in paragraph order. -/
def boldSegSpec (fns : List FRecord) (p : Paragraph) : List String × List String :=
  let refs := find_footnote_references_in_paragraph fns p
  let items := p.runs.enum.map (fun ir =>
    (ir.2.bold, ir.2.text ++ (dictLast refs ir.1).getD ""))
  let chunks := segChunks items
  ((chunks.filter (fun c => c.1)).map (fun c => c.2),
   (chunks.filter (fun c => !c.1)).map (fun c => c.2))

/-! ### Supporting lemmas: the two `while` loops of the list state machine -/

theorem popLoop_eq : ∀ (fuel : Nat) (ds : List ListKind) (cs : List Nat) (n : Nat),
    ds.length - n ≤ fuel → ds.length = cs.length →
    popLoop fuel ds cs n = (ds.take n, cs.take n)
  | 0, ds, cs, n, hfuel, hlen => by
    have hd : ds.length ≤ n := by omega
    have hc : cs.length ≤ n := by omega
    simp [popLoop, List.take_of_length_le hd, List.take_of_length_le hc]
  | fuel + 1, ds, cs, n, hfuel, hlen => by
    rw [popLoop]
    by_cases hgt : ds.length > n
    · rw [if_pos hgt]
      rw [popLoop_eq fuel ds.dropLast cs.dropLast n
        (by simp [List.length_dropLast]; omega)
        (by simp [List.length_dropLast, hlen])]
      have hds : ds.dropLast.take n = ds.take n := by
        rw [List.dropLast_eq_take, List.take_take]
        congr 1
        omega
      have hcs : cs.dropLast.take n = cs.take n := by
        rw [List.dropLast_eq_take, List.take_take]
        congr 1
        omega
      rw [hds, hcs]
    · rw [if_neg hgt]
      have hd : ds.length ≤ n := by omega
      have hc : cs.length ≤ n := by omega
      rw [List.take_of_length_le hd, List.take_of_length_le hc]

theorem growLoop_eq : ∀ (fuel : Nat) (ds : List ListKind) (cs : List Nat) (k : ListKind) (n : Nat),
    n - ds.length ≤ fuel → ds.length = cs.length →
    growLoop fuel ds cs k n =
      (ds ++ List.replicate (n - ds.length) k, cs ++ List.replicate (n - cs.length) 1)
  | 0, ds, cs, k, n, hfuel, hlen => by
    have h1 : n - ds.length = 0 := by omega
    have h2 : n - cs.length = 0 := by omega
    simp [growLoop, h1, h2]
  | fuel + 1, ds, cs, k, n, hfuel, hlen => by
    rw [growLoop]
    by_cases hlt : ds.length < n
    · rw [if_pos hlt]
      rw [growLoop_eq fuel (ds ++ [k]) (cs ++ [1]) k n (by simp; omega) (by simp [hlen])]
      have h1 : n - ds.length = (n - (ds.length + 1)) + 1 := by omega
      have h2 : n - cs.length = (n - (cs.length + 1)) + 1 := by omega
      simp only [List.length_append, List.length_cons, List.length_nil]
      rw [h1, h2, List.replicate_succ]
      rw [List.replicate_succ]
      simp
    · rw [if_neg hlt]
      have h1 : n - ds.length = 0 := by omega
      have h2 : n - cs.length = 0 := by omega
      simp [h1, h2]

/-- The two loops together, from stacks of equal length: truncate to
`level + 1` entries and pad with `k` / `1` up to `level + 1` entries. -/
theorem adjustStacks_eq (st : ListState) (k : ListKind) (level : Nat)
    (hlen : st.depth.length = st.counters.length) :
    growLoop (level + 1)
        (popLoop st.depth.length st.depth st.counters (level + 1)).1
        (popLoop st.depth.length st.depth st.counters (level + 1)).2 k (level + 1) =
      (st.depth.take (level + 1) ++ List.replicate (level + 1 - st.depth.length) k,
       st.counters.take (level + 1) ++ List.replicate (level + 1 - st.counters.length) 1) := by
  rw [popLoop_eq st.depth.length st.depth st.counters (level + 1) (by omega) hlen]
  rw [growLoop_eq (level + 1) (st.depth.take (level + 1)) (st.counters.take (level + 1)) k
    (level + 1) (by simp only [List.length_take]; omega) (by simp [List.length_take, hlen])]
  have h1 : level + 1 - (st.depth.take (level + 1)).length = level + 1 - st.depth.length := by
    simp [List.length_take]; omega
  have h2 : level + 1 - (st.counters.take (level + 1)).length = level + 1 - st.counters.length := by
    simp [List.length_take]; omega
  rw [h1, h2]

/-- Length of the adjusted counters stack: exactly `level + 1`. -/
theorem adjusted_counters_length (cs : List Nat) (level : Nat) :
    (cs.take (level + 1) ++ List.replicate (level + 1 - cs.length) 1).length = level + 1 := by
  simp [List.length_take, List.length_replicate]
  omega

/-- Length of the adjusted depth stack: exactly `level + 1`. -/
theorem adjusted_depth_length (ds : List ListKind) (k : ListKind) (level : Nat) :
    (ds.take (level + 1) ++ List.replicate (level + 1 - ds.length) k).length = level + 1 := by
  simp [List.length_take, List.length_replicate]
  omega

/-- The ordered branch of the list state machine, in closed form. -/
theorem listItemLines_ordered (st : ListState) (level : Nat) (cleaned : String)
    (hlen : st.depth.length = st.counters.length) :
    listItemLines st ListKind.ordered level cleaned =
      ([ get_org_list_prefix ListKind.ordered level
          (some ((st.counters.take (level + 1) ++
            List.replicate (level + 1 - st.counters.length) 1).getD level 0)) ++ cleaned],
       ⟨st.depth.take (level + 1) ++ List.replicate (level + 1 - st.depth.length) ListKind.ordered,
        (st.counters.take (level + 1) ++ List.replicate (level + 1 - st.counters.length) 1).set
          level
          ((st.counters.take (level + 1) ++
            List.replicate (level + 1 - st.counters.length) 1).getD level 0 + 1)⟩) := by
  have h := adjustStacks_eq st ListKind.ordered level hlen
  simp only [listItemLines, h]

/-- The unordered branch of the list state machine, in closed form: the counter
at the item's level is reset to 1 (the `level < len` guard always holds after
the two loops). -/
theorem listItemLines_unordered (st : ListState) (level : Nat) (cleaned : String)
    (hlen : st.depth.length = st.counters.length) :
    listItemLines st ListKind.unordered level cleaned =
      ([ get_org_list_prefix ListKind.unordered level (some 1) ++ cleaned],
       ⟨st.depth.take (level + 1) ++ List.replicate (level + 1 - st.depth.length) ListKind.unordered,
        (st.counters.take (level + 1) ++ List.replicate (level + 1 - st.counters.length) 1).set
          level 1⟩) := by
  have h := adjustStacks_eq st ListKind.unordered level hlen
  have hguard : level < (st.counters.take (level + 1) ++
      List.replicate (level + 1 - st.counters.length) 1).length := by
    rw [adjusted_counters_length]
    omega
  simp only [listItemLines, h, if_pos hguard]

/-- `process_paragraph` on a non-blank paragraph detected as a list item runs
the list state machine on the cleaned text. -/
theorem process_paragraph_list_branch (fns : List FRecord) (st : ListState) (p : Paragraph)
    (k : ListKind) (level : Nat)
    (hne : trimStr (process_text_with_footnotes fns p) ≠ "")
    (hdet : detect_list_type_and_level p = (some k, level)) :
    process_paragraph fns st p =
      listItemLines st k level (clean_list_text (process_text_with_footnotes fns p) k) := by
  simp only [process_paragraph, hdet, if_neg hne]

/-- `process_paragraph` on a blank paragraph: no lines, state untouched. -/
theorem process_paragraph_blank (fns : List FRecord) (st : ListState) (p : Paragraph)
    (hb : trimStr (process_text_with_footnotes fns p) = "") :
    process_paragraph fns st p = ([], st) := by
  simp only [process_paragraph, if_pos hb]

/-- `process_paragraph` on a non-blank paragraph not detected as a list item:
the emitted lines of the centered / bold / plain branch, with both stacks
cleared. -/
theorem process_paragraph_nonlist (fns : List FRecord) (st : ListState) (p : Paragraph)
    (hne : trimStr (process_text_with_footnotes fns p) ≠ "")
    (hdet : (detect_list_type_and_level p).1 = none) :
    process_paragraph fns st p =
      (if p.centered then ["* " ++ trimStr (process_text_with_footnotes fns p)]
       else if has_bold_text p then
         ((extract_bold_portions_with_footnotes fns p).1.filter
             (fun b => trimStr b ≠ "")).map (fun b => "** " ++ trimStr b)
           ++ ((extract_bold_portions_with_footnotes fns p).2.filter
             (fun r => trimStr r ≠ "")).map (fun r => trimStr r)
       else [trimStr (process_text_with_footnotes fns p)],
       initListState) := by
  rcases hpp : detect_list_type_and_level p with ⟨o, lv⟩
  rw [hpp] at hdet
  subst hdet
  simp only [process_paragraph, hpp, if_neg hne]
  by_cases hc : p.centered
  · simp [hc]
  · by_cases hbold : has_bold_text p
    · simp [hc, hbold]
    · simp [hc, hbold]

/-! ### Concrete documents and paragraphs used by the claim theorems -/

/-- A level-0 ordered list item: `w:numPr` with a `w:numId`, no `w:ilvl`. -/
def orderedItemPara (t : String) : Paragraph :=
  ⟨[⟨t, false, [], []⟩], false, "Normal", none, some ⟨none, true⟩⟩

/-- A level-0 unordered list item: `w:numPr` without a `w:numId`. -/
def unorderedItemPara (t : String) : Paragraph :=
  ⟨[⟨t, false, [], []⟩], false, "Normal", none, some ⟨none, false⟩⟩

/-- A paragraph whose single run holds only a space. -/
def blankPara : Paragraph :=
  ⟨[⟨" ", false, [], []⟩], false, "Normal", none, none⟩

/-- The paragraph of the spec's concrete bold scenario: a plain `"Hello "` run,
then a bold `"World"` run carrying a note reference with source id `"9"`. -/
def para9 : Paragraph :=
  ⟨[⟨"Hello ", false, [], []⟩, ⟨"World", true, [some "9"], []⟩], false, "Normal", none, none⟩

/-- A footnote table in which id `"9"` is the third record. -/
def fnsC9 : List FRecord := [⟨"7", "a"⟩, ⟨"8", "b"⟩, ⟨"9", "c"⟩]

/-! ### Claim C1 -/

/-- C1: on a list-item paragraph of kind `K` at level `L`, `process_paragraph`
performs the spec's four steps — both stacks truncated to `L+1` entries and
padded with `K` / counter 1 up to `L+1` entries; an ordered item is numbered
with `item_counters[L]` which is then incremented; an unordered item resets
`item_counters[L]` to 1 and its emitted prefix carries no number (it is
independent of the number argument); and the ordered-ordered-unordered-ordered
scenario at level 0 numbers the last item 1. -/
theorem c1_list_state_transition :
    (∀ (fns : List FRecord) (st : ListState) (p : Paragraph) (k : ListKind) (level : Nat),
      st.depth.length = st.counters.length →
      trimStr (process_text_with_footnotes fns p) ≠ "" →
      detect_list_type_and_level p = (some k, level) →
      (k = ListKind.ordered →
        process_paragraph fns st p =
          ([ get_org_list_prefix ListKind.ordered level
              (some ((st.counters.take (level + 1) ++
                List.replicate (level + 1 - st.counters.length) 1).getD level 0)) ++
             clean_list_text (process_text_with_footnotes fns p) ListKind.ordered],
           ⟨st.depth.take (level + 1) ++
              List.replicate (level + 1 - st.depth.length) ListKind.ordered,
            (st.counters.take (level + 1) ++
              List.replicate (level + 1 - st.counters.length) 1).set level
              ((st.counters.take (level + 1) ++
                List.replicate (level + 1 - st.counters.length) 1).getD level 0 + 1)⟩)) ∧
      (k = ListKind.unordered →
        process_paragraph fns st p =
          ([ get_org_list_prefix ListKind.unordered level (some 1) ++
             clean_list_text (process_text_with_footnotes fns p) ListKind.unordered],
           ⟨st.depth.take (level + 1) ++
              List.replicate (level + 1 - st.depth.length) ListKind.unordered,
            (st.counters.take (level + 1) ++
              List.replicate (level + 1 - st.counters.length) 1).set level 1⟩)))
    ∧ (∀ (level : Nat) (x y : Option Nat),
        get_org_list_prefix ListKind.unordered level x =
          get_org_list_prefix ListKind.unordered level y)
    ∧ (paragraphFold [] [orderedItemPara "a", orderedItemPara "b",
        unorderedItemPara "c", orderedItemPara "d"]).1 = ["1. a", "2. b", "- c", "1. d"] := by
  refine ⟨?_, ?_, ?_⟩
  · intro fns st p k level hlen hne hdet
    constructor
    · rintro rfl
      rw [process_paragraph_list_branch fns st p _ level hne hdet,
        listItemLines_ordered st level _ hlen]
    · rintro rfl
      rw [process_paragraph_list_branch fns st p _ level hne hdet,
        listItemLines_unordered st level _ hlen]
  · intro level x y
    rfl
  · decide

/-- C1 witness: the ordered branch applied at a concrete paragraph and state
`([ordered], [5])` — item numbered 5, counter bumped to 6. -/
theorem c1_list_state_transition_witness :
    (([ListKind.ordered] : List ListKind).length = ([5] : List Nat).length) ∧
    trimStr (process_text_with_footnotes [] (orderedItemPara "x")) ≠ "" ∧
    detect_list_type_and_level (orderedItemPara "x") = (some ListKind.ordered, 0) ∧
    process_paragraph [] ⟨[ListKind.ordered], [5]⟩ (orderedItemPara "x") =
      (["5. x"], ⟨[ListKind.ordered], [6]⟩) :=
  ⟨by decide, by decide, by decide, by
    have h := (c1_list_state_transition.1 [] ⟨[ListKind.ordered], [5]⟩ (orderedItemPara "x")
      ListKind.ordered 0 (by decide) (by decide) (by decide)).1 rfl
    exact h.trans (by decide)⟩

/-! ### Claim C2 -/

/-- C2 counterexample: a whitespace-only paragraph is a non-list paragraph
(list detection yields none for it), yet processing it from a non-empty list
state leaves both stacks non-empty — the claim's "after processing any
non-list paragraph both stacks are empty" is false at this input. -/
theorem c2_blank_paragraph_counterexample :
    (detect_list_type_and_level blankPara).1 = none ∧
    (process_paragraph [] ⟨[ListKind.ordered], [2]⟩ blankPara).2 ≠ initListState :=
  ⟨by decide, by decide⟩

/-- C2 (amended): after any paragraph the two stacks keep equal length; after
a list item at level `L` (from an equal-length state) both have length exactly
`L+1`; after a non-list paragraph with non-blank spliced text both are empty;
and a paragraph whose spliced text is blank leaves the state untouched. -/
theorem c2_stack_invariants :
    (∀ (fns : List FRecord) (st : ListState) (p : Paragraph),
      st.depth.length = st.counters.length →
      ((process_paragraph fns st p).2).depth.length =
        ((process_paragraph fns st p).2).counters.length)
    ∧ (∀ (fns : List FRecord) (st : ListState) (p : Paragraph) (k : ListKind) (level : Nat),
        st.depth.length = st.counters.length →
        trimStr (process_text_with_footnotes fns p) ≠ "" →
        detect_list_type_and_level p = (some k, level) →
        ((process_paragraph fns st p).2).depth.length = level + 1 ∧
        ((process_paragraph fns st p).2).counters.length = level + 1)
    ∧ (∀ (fns : List FRecord) (st : ListState) (p : Paragraph),
        trimStr (process_text_with_footnotes fns p) ≠ "" →
        (detect_list_type_and_level p).1 = none →
        (process_paragraph fns st p).2 = initListState)
    ∧ (∀ (fns : List FRecord) (st : ListState) (p : Paragraph),
        trimStr (process_text_with_footnotes fns p) = "" →
        (process_paragraph fns st p).2 = st) := by
  have hsome : ∀ (fns : List FRecord) (st : ListState) (p : Paragraph) (k : ListKind)
      (level : Nat), st.depth.length = st.counters.length →
      trimStr (process_text_with_footnotes fns p) ≠ "" →
      detect_list_type_and_level p = (some k, level) →
      ((process_paragraph fns st p).2).depth.length = level + 1 ∧
      ((process_paragraph fns st p).2).counters.length = level + 1 := by
    intro fns st p k level hlen hne hdet
    rw [process_paragraph_list_branch fns st p k level hne hdet]
    cases k
    · rw [listItemLines_ordered st level _ hlen]
      constructor
      · exact adjusted_depth_length st.depth ListKind.ordered level
      · simp only [List.length_set]
        exact adjusted_counters_length st.counters level
    · rw [listItemLines_unordered st level _ hlen]
      constructor
      · exact adjusted_depth_length st.depth ListKind.unordered level
      · simp only [List.length_set]
        exact adjusted_counters_length st.counters level
  have hnone : ∀ (fns : List FRecord) (st : ListState) (p : Paragraph),
      trimStr (process_text_with_footnotes fns p) ≠ "" →
      (detect_list_type_and_level p).1 = none →
      (process_paragraph fns st p).2 = initListState := by
    intro fns st p hne hdet
    rw [process_paragraph_nonlist fns st p hne hdet]
  refine ⟨?_, hsome, hnone, ?_⟩
  · intro fns st p hlen
    by_cases hb : trimStr (process_text_with_footnotes fns p) = ""
    · rw [process_paragraph_blank fns st p hb]
      exact hlen
    · rcases hpp : detect_list_type_and_level p with ⟨o, lv⟩
      cases o with
      | some k =>
        have h := hsome fns st p k lv hlen hb hpp
        rw [h.1, h.2]
      | none =>
        rw [hnone fns st p hb (by rw [hpp])]
        rfl
  · intro fns st p hb
    rw [process_paragraph_blank fns st p hb]

/-- C2 witness: the length invariants applied at a concrete list item and the
clearing branch at a concrete plain paragraph. -/
theorem c2_stack_invariants_witness :
    (([ListKind.ordered] : List ListKind).length = ([5] : List Nat).length) ∧
    trimStr (process_text_with_footnotes [] (orderedItemPara "y")) ≠ "" ∧
    detect_list_type_and_level (orderedItemPara "y") = (some ListKind.ordered, 0) ∧
    ((process_paragraph [] ⟨[ListKind.ordered], [5]⟩ (orderedItemPara "y")).2).depth.length = 1 ∧
    ((process_paragraph [] ⟨[ListKind.ordered], [5]⟩ (orderedItemPara "y")).2).counters.length = 1 :=
  ⟨by decide, by decide, by decide, by
    have h := c2_stack_invariants.2.1 [] ⟨[ListKind.ordered], [5]⟩ (orderedItemPara "y")
      ListKind.ordered 0 (by decide) (by decide) (by decide)
    exact ⟨h.1, h.2⟩⟩

/-! ### Claim C10 -/

/-- C10: a paragraph whose spliced text is blank emits no lines and leaves the
list state exactly as it was (the function returns before the clearing branch);
hence ordered numbering continues across a blank paragraph, as the concrete
ordered-blank-ordered scenario shows. -/
theorem c10_blank_paragraph_frame :
    (∀ (fns : List FRecord) (st : ListState) (p : Paragraph),
      trimStr (process_text_with_footnotes fns p) = "" →
      process_paragraph fns st p = ([], st))
    ∧ (paragraphFold [] [orderedItemPara "alpha", blankPara, orderedItemPara "beta"]).1
        = ["1. alpha", "2. beta"] :=
  ⟨fun fns st p hb => process_paragraph_blank fns st p hb, by decide⟩

/-- C10 witness: the frame property applied at the whitespace-only paragraph
from a non-trivial list state. -/
theorem c10_blank_paragraph_frame_witness :
    trimStr (process_text_with_footnotes [] blankPara) = "" ∧
    process_paragraph [] ⟨[ListKind.ordered], [7]⟩ blankPara =
      ([], ⟨[ListKind.ordered], [7]⟩) :=
  ⟨by decide, c10_blank_paragraph_frame.1 [] ⟨[ListKind.ordered], [7]⟩ blankPara (by decide)⟩

/-! ### Claim C9 -/

/-- C9 counterexample: in the spec's concrete scenario the second emitted line
is the stripped `"Hello"`, not `"Hello "` — the emitted lines differ from the
claim's stated pair. -/
theorem c9_trailing_space_counterexample :
    (process_paragraph fnsC9 initListState para9).1 = ["** World[fn:3]", "Hello"] ∧
    (["** World[fn:3]", "Hello"] : List String) ≠ ["** World[fn:3]", "Hello "] :=
  ⟨by decide, by decide⟩

/-- C9 (amended): for every non-blank, non-list, non-centered paragraph with
bold text, all bold-derived lines (`**`-prefixed, stripped) precede all
regular-derived lines (stripped); in the concrete scenario the emitted lines
are `"** World[fn:3]"` then `"Hello"`. -/
theorem c9_bold_before_regular :
    (∀ (fns : List FRecord) (st : ListState) (p : Paragraph),
      trimStr (process_text_with_footnotes fns p) ≠ "" →
      (detect_list_type_and_level p).1 = none →
      p.centered = false →
      has_bold_text p = true →
      (process_paragraph fns st p).1 =
        ((extract_bold_portions_with_footnotes fns p).1.filter
            (fun b => trimStr b ≠ "")).map (fun b => "** " ++ trimStr b)
          ++ ((extract_bold_portions_with_footnotes fns p).2.filter
            (fun r => trimStr r ≠ "")).map (fun r => trimStr r))
    ∧ (process_paragraph fnsC9 initListState para9).1 = ["** World[fn:3]", "Hello"] := by
  constructor
  · intro fns st p hne hdet hcent hbold
    rw [process_paragraph_nonlist fns st p hne hdet]
    simp [hcent, hbold]
  · decide

/-- C9 witness: the ordering property applied at the scenario paragraph. -/
theorem c9_bold_before_regular_witness :
    trimStr (process_text_with_footnotes fnsC9 para9) ≠ "" ∧
    (detect_list_type_and_level para9).1 = none ∧
    para9.centered = false ∧
    has_bold_text para9 = true ∧
    (process_paragraph fnsC9 initListState para9).1 =
      ((extract_bold_portions_with_footnotes fnsC9 para9).1.filter
          (fun b => trimStr b ≠ "")).map (fun b => "** " ++ trimStr b)
        ++ ((extract_bold_portions_with_footnotes fnsC9 para9).2.filter
          (fun r => trimStr r ≠ "")).map (fun r => trimStr r) :=
  ⟨by decide, by decide, by decide, by decide,
    c9_bold_before_regular.1 fnsC9 initListState para9 (by decide) (by decide) rfl rfl⟩

/-! ### Claim C5: the reference resolver -/

theorem findFootnoteNumAux_eq (rid : String) :
    ∀ (fns : List FRecord) (i : Nat),
      findFootnoteNumAux rid fns i =
        (List.findIdx? (fun fn => fn.id = rid) fns i).map (fun j => j + 1)
  | [], _ => rfl
  | fn :: rest, i => by
    simp only [findFootnoteNumAux, List.findIdx?]
    by_cases h : fn.id = rid
    · simp [h]
    · rw [if_neg h, if_neg (by simpa using h)]
      exact findFootnoteNumAux_eq rid rest (i + 1)

theorem findFootnoteNum_eq (fns : List FRecord) (rid : String) :
    findFootnoteNum fns rid = (fns.findIdx? (fun fn => fn.id = rid)).map (fun j => j + 1) :=
  findFootnoteNumAux_eq rid fns 0

theorem runRefTokens_eq (fns : List FRecord) (idx : Nat) (r : Run) :
    runRefTokens fns idx r =
      r.footnoteRefIds.filterMap (fun oid =>
        oid.bind (fun rid =>
          if rid = "" then none
          else (fns.findIdx? (fun fn => fn.id = rid)).map
            (fun j => (idx, "[fn:" ++ natToStr (j + 1) ++ "]")))) := by
  unfold runRefTokens
  congr 1
  funext oid
  cases oid with
  | none => rfl
  | some rid =>
    by_cases h : rid = ""
    · simp [h]
    · simp only [findFootnoteNum_eq fns rid]
      cases hfi : fns.findIdx? (fun fn => fn.id = rid) with
      | none => simp [h, hfi]
      | some j => simp [h, hfi]

/-- A table whose only record is an endnote record with id `"7"` (endnote
records enter the same table as footnote records, after them). -/
def fnsC5 : List FRecord := [⟨"7", "endnote body"⟩]

/-- A paragraph whose single run carries one `w:endnoteReference` marker with
id `"7"` and no `w:footnoteReference` marker. -/
def para5e : Paragraph :=
  ⟨[⟨"E", false, [], [some "7"]⟩], false, "Normal", none, none⟩

/-- C5 counterexample: run 0 of `para5e` carries a note-reference marker (an
endnote reference) whose id `"7"` is the id of the first record of the table
— the linear scan finds it at output number 1 — yet the resolver emits no
marker at all: it inspects only `w:footnoteReference` elements. -/
theorem c5_endnote_marker_counterexample :
    para5e.runs = [⟨"E", false, [], [some "7"]⟩] ∧
    findFootnoteNum fnsC5 "7" = some 1 ∧
    find_footnote_references_in_paragraph fnsC5 para5e = [] ∧
    find_footnote_references_in_paragraph fnsC5 para5e ≠ [(0, "[fn:1]")] :=
  ⟨by decide, by decide, by decide, by decide⟩

/-- The paragraph with every `w:endnoteReference` marker removed. -/
def stripEndnoteMarkers (p : Paragraph) : Paragraph :=
  { p with runs := p.runs.map (fun r => { r with endnoteRefIds := [] }) }

theorem find_refs_strip_endnotes_aux (fns : List FRecord) :
    ∀ (i : Nat) (rs : List Run),
      (List.enumFrom i (rs.map (fun r => { r with endnoteRefIds := [] }))).map
          (fun ir => runRefTokens fns ir.1 ir.2) =
        (List.enumFrom i rs).map (fun ir => runRefTokens fns ir.1 ir.2)
  | _, [] => rfl
  | i, r :: rest => by
    simp only [List.map_cons, List.enumFrom]
    exact congrArg₂ List.cons rfl (find_refs_strip_endnotes_aux fns (i + 1) rest)

/-- C5 (amended): the resolver emits, for every footnote-reference marker
whose id resolves in the table, `(run_index, "[fn:N]")` with `N` the 1-based
position of the first matching record (`List.findIdx?`); it never reads a
run's endnote-reference markers (its output is unchanged when they are all
removed); and a reference whose id is absent from the table contributes
nothing — as the concrete unmatched-reference run shows. -/
theorem c5_reference_resolver :
    (∀ (fns : List FRecord) (p : Paragraph),
      find_footnote_references_in_paragraph fns p = resolverSpec fns p)
    ∧ (∀ (fns : List FRecord) (p : Paragraph),
        find_footnote_references_in_paragraph fns (stripEndnoteMarkers p) =
          find_footnote_references_in_paragraph fns p)
    ∧ find_footnote_references_in_paragraph fnsC9
        ⟨[⟨"t", false, [some "42"], []⟩], false, "Normal", none, none⟩ = [] := by
  refine ⟨?_, ?_, by decide⟩
  · intro fns p
    unfold find_footnote_references_in_paragraph resolverSpec
    simp only [runRefTokens_eq]
  · intro fns p
    unfold find_footnote_references_in_paragraph stripEndnoteMarkers
    simp only [List.enum]
    exact congrArg List.flatten (find_refs_strip_endnotes_aux fns 0 p.runs)

/-! ### Claim C3: extraction records -/

theorem processNoteList_eq (ns : List NoteElem) :
    processNoteList ns = ns.filterMap specRecordOfNote := by
  induction ns with
  | nil => rfl
  | cons n rest ih =>
    rw [List.filterMap_cons]
    cases hid : n.id with
    | none => simp only [processNoteList, hid, specRecordOfNote, List.nil_append, ih]
    | some i =>
      by_cases h0 : i = "" ∨ i = "0"
      · have h1 : ¬(i ≠ "" ∧ i ≠ "0") := by tauto
        simp only [processNoteList, hid, specRecordOfNote, if_neg h1, if_pos h0,
          List.nil_append, ih]
      · have h1 : i ≠ "" ∧ i ≠ "0" := by tauto
        by_cases ht : trimStr (extractNoteText n) = ""
        · simp only [processNoteList, hid, specRecordOfNote, if_pos h1, if_neg h0, ht, ih]
          simp
        · simp only [processNoteList, hid, specRecordOfNote, if_pos h1, if_neg h0, ih]
          simp [ht]

/-- The note of the C3 counterexample: id `"1"`, one text leaf `"hi "`. -/
def noteC3 : NoteElem := ⟨some "1", ["hi "], false⟩

/-- The document of the C3 counterexample: one footnotes part with that note. -/
def docC3 : Document := ⟨PartFetch.notes [noteC3], PartFetch.absent, [], []⟩

/-- C3 counterexample: the whitespace-preserving concatenation of the note's
text leaves is `"hi "`, but the record built for it carries the stripped text
`"hi"` — the record sequence the claim requires differs from the built one. -/
theorem c3_stripped_text_counterexample :
    extract_footnotes_from_xml docC3 = [⟨"1", "hi"⟩] ∧
    extractNoteText noteC3 = "hi " ∧
    extract_footnotes_from_xml docC3 ≠ [⟨"1", "hi "⟩] :=
  ⟨by decide, by decide, by decide⟩

/-- C3 (amended): when both parts are reached through the primary access path
and the relationship fallback contributes nothing, the record sequence is one
record per note of the footnotes part then the endnotes part, in source order
— skipping notes with a missing or empty id, the reserved id `"0"`, and notes
whose extracted text is blank — and each record's text is the
whitespace-preserving concatenation of the note's text leaves trimmed at both
ends. -/
theorem c3_extraction_records :
    ∀ (f e : List NoteElem) (ps : List Paragraph),
      extract_footnotes_from_xml ⟨PartFetch.notes f, PartFetch.notes e, [], ps⟩ =
        f.filterMap specRecordOfNote ++ e.filterMap specRecordOfNote := by
  intro f e ps
  show processNoteList f ++ processNoteList e ++ method2Rels [] =
    f.filterMap specRecordOfNote ++ e.filterMap specRecordOfNote
  rw [processNoteList_eq, processNoteList_eq]
  simp [method2Rels]

/-! ### Claim C7: per-note failure isolation -/

/-- C7: a note element whose parsing fails (its text extraction raises, turned
into `""` by the extractor's inner `except`) contributes no record and does
not disturb the records of any other note — extraction over a part equals
extraction over the part with the broken notes removed; a concrete broken
note between two good ones keeps both; and a document with no reachable parts
yields the (valid) empty table without an error. -/
theorem c7_note_failure_isolation :
    (∀ ns : List NoteElem,
      processNoteList ns = processNoteList (ns.filter (fun n => !n.textBroken)))
    ∧ processNoteList [⟨some "1", ["a"], false⟩, ⟨some "2", ["b"], true⟩,
        ⟨some "3", ["c"], false⟩] = [⟨"1", "a"⟩, ⟨"3", "c"⟩]
    ∧ extract_footnotes_from_xml ⟨PartFetch.absent, PartFetch.absent, [], []⟩ = [] := by
  refine ⟨?_, by decide, by decide⟩
  intro ns
  induction ns with
  | nil => rfl
  | cons n rest ih =>
    rw [List.filter_cons]
    by_cases hbr : n.textBroken
    · have he : extractNoteText n = "" := by simp [extractNoteText, hbr]
      have ht : trimStr (extractNoteText n) = "" := by rw [he]; rfl
      simp only [hbr, Bool.not_true, Bool.false_eq_true, if_false]
      rw [processNoteList]
      cases hid : n.id with
      | none => simpa using ih
      | some i =>
        by_cases h1 : i ≠ "" ∧ i ≠ "0"
        · simp only [if_pos h1, ht, ne_eq, not_true_eq_false, if_false, List.nil_append]
          exact ih
        · simp only [if_neg h1, List.nil_append]
          exact ih
    · simp only [hbr, Bool.not_false, if_true]
      rw [processNoteList, processNoteList, ih]

/-! ### Claim C4: the footnote trailer and the zero-notes case -/

/-- The document of the C4 counterexample: zero notes, one paragraph whose own
text contains the characters `[fn:`. -/
def docC4zero : Document :=
  ⟨PartFetch.absent, PartFetch.absent, [],
   [⟨[⟨"see [fn:1] x", false, [], []⟩], false, "Normal", none, none⟩]⟩

/-- C4 counterexample: a zero-notes document whose paragraph text itself
contains `[fn:` — the output still contains a `[fn:` token, so "no `[fn:`
token anywhere" fails as stated. -/
theorem c4_literal_token_counterexample :
    extract_footnotes_from_xml docC4zero = [] ∧
    convert_docx_to_org docC4zero = ["see [fn:1] x"] ∧
    ∃ a b : String, convertOutputString docC4zero = a ++ "[fn:" ++ b :=
  ⟨by decide, by decide, ⟨"see ", "1] x", by decide⟩⟩

/-- C4 (amended): with a non-empty table the output ends in a blank separator,
the `* Footnotes` heading and one `[fn:N] text` line per record in table
order; with an empty table no trailer is appended (the output is exactly the
paragraph-derived lines) and the resolver contributes no `[fn:` token — the
spliced text of every paragraph is its raw run text. -/
theorem c4_footnote_trailer :
    (∀ d : Document, extract_footnotes_from_xml d ≠ [] →
      convert_docx_to_org d =
        (paragraphFold (extract_footnotes_from_xml d) d.paragraphs).1
          ++ [""] ++ ["* Footnotes"] ++ footnoteDefLines (extract_footnotes_from_xml d))
    ∧ (∀ d : Document, extract_footnotes_from_xml d = [] →
        convert_docx_to_org d = (paragraphFold [] d.paragraphs).1)
    ∧ (∀ p : Paragraph, find_footnote_references_in_paragraph [] p = [] ∧
        process_text_with_footnotes [] p = p.text) := by
  have hrun : ∀ (idx : Nat) (r : Run), runRefTokens [] idx r = [] := by
    intro idx r
    unfold runRefTokens
    rw [List.filterMap_eq_nil_iff]
    intro oid _
    cases oid with
    | none => rfl
    | some rid => by_cases h : rid = "" <;> simp [h, findFootnoteNum, findFootnoteNumAux]
  have hfind : ∀ p : Paragraph, find_footnote_references_in_paragraph [] p = [] := by
    intro p
    unfold find_footnote_references_in_paragraph
    rw [List.flatten_eq_nil_iff]
    intro l hl
    rw [List.mem_map] at hl
    obtain ⟨ir, _, rfl⟩ := hl
    exact hrun ir.1 ir.2
  refine ⟨?_, ?_, ?_⟩
  · intro d hne
    simp only [convert_docx_to_org, if_pos hne]
  · intro d he
    simp only [convert_docx_to_org, he]
    simp
  · intro p
    refine ⟨hfind p, ?_⟩
    unfold process_text_with_footnotes
    rw [hfind p]
    simp

/-- The document of the C4 witness: one footnote, one plain paragraph. -/
def docC4one : Document :=
  ⟨PartFetch.notes [⟨some "5", ["note text"], false⟩], PartFetch.absent, [],
   [⟨[⟨"Body", false, [], []⟩], false, "Normal", none, none⟩]⟩

/-- C4 witness: the trailer shape applied at a one-footnote document and the
no-trailer case at a zero-notes document. -/
theorem c4_footnote_trailer_witness :
    extract_footnotes_from_xml docC4one ≠ [] ∧
    convert_docx_to_org docC4one =
      (paragraphFold (extract_footnotes_from_xml docC4one) docC4one.paragraphs).1
        ++ [""] ++ ["* Footnotes"] ++ footnoteDefLines (extract_footnotes_from_xml docC4one) ∧
    convert_docx_to_org docC4one = ["Body", "", "* Footnotes", "[fn:1] note text"] :=
  ⟨by decide, c4_footnote_trailer.1 docC4one (by decide), by decide⟩

/-! ### Claim C8: heading level detection -/

/-- C8: the fixed-set and `title` mappings behave as the claim says, but the
numeric-suffix fallback never returns a number: on style name `"heading 12"`
the function returns 0 where the claim requires 12 (the shipped regex reads
`r'headings*(d+)'` — its backslashes are missing — and the adjacent line even
leaves a string literal unterminated); the spec-modelled intended detector
returns 12 there. -/
theorem c8_heading_level_eval :
    detect_heading_level "Heading 3" "" = 3 ∧
    detect_heading_level "Body Text" "heading2" = 2 ∧
    detect_heading_level "Title" "" = 1 ∧
    detect_heading_level "Standard" "" = 0 ∧
    detect_heading_level "heading 12" "" = 0 ∧
    detect_heading_level_spec "heading 12" "" = 12 :=
  ⟨by decide, by decide, by decide, by decide, by decide, by decide⟩

/-! ### Claim C6: bold segmentation -/

/-- Texts of the bold chunks, in order. -/
def boldTexts (chunks : List (Bool × String)) : List String :=
  (chunks.filter (fun c => c.1)).map (fun c => c.2)

/-- Texts of the regular chunks, in order. -/
def regTexts (chunks : List (Bool × String)) : List String :=
  (chunks.filter (fun c => !c.1)).map (fun c => c.2)

/-- Merge an optional pending segment onto a chunk list. -/
def optMergeChunk : Option (Bool × String) → List (Bool × String) → List (Bool × String)
  | none, l => l
  | some a, l => consMergeChunk a l

/-- The pending open segment held by the loop accumulators. -/
def pendingOf (cb cr : List String) : Option (Bool × String) :=
  if cb ≠ [] then some (true, joinStr cb)
  else if cr ≠ [] then some (false, joinStr cr)
  else none

theorem joinStr_append_singleton (l : List String) (x : String) :
    joinStr (l ++ [x]) = joinStr l ++ x := by
  simp [joinStr, List.foldl_append]

theorem consMergeChunk_absorb (b : Bool) (s t : String) (C : List (Bool × String)) :
    consMergeChunk (b, s) (consMergeChunk (b, t) C) = consMergeChunk (b, s ++ t) C := by
  cases C with
  | nil => simp [consMergeChunk]
  | cons c rest =>
    by_cases h : b = c.1
    · simp [consMergeChunk, h, String.append_assoc]
    · simp [consMergeChunk, h]

theorem consMergeChunk_ne_head (b c : Bool) (s t : String) (C : List (Bool × String))
    (hne : b ≠ c) :
    consMergeChunk (b, s) (consMergeChunk (c, t) C) =
      (b, s) :: consMergeChunk (c, t) C := by
  cases C with
  | nil => simp [consMergeChunk, hne]
  | cons d rest =>
    by_cases h : c = d.1
    · subst h
      simp [consMergeChunk, hne]
    · simp [consMergeChunk, h, hne]

theorem boldTexts_cons_true (s : String) (D : List (Bool × String)) :
    boldTexts ((true, s) :: D) = s :: boldTexts D := by
  simp [boldTexts]

theorem boldTexts_cons_false (s : String) (D : List (Bool × String)) :
    boldTexts ((false, s) :: D) = boldTexts D := by
  simp [boldTexts]

theorem regTexts_cons_true (s : String) (D : List (Bool × String)) :
    regTexts ((true, s) :: D) = regTexts D := by
  simp [regTexts]

theorem regTexts_cons_false (s : String) (D : List (Bool × String)) :
    regTexts ((false, s) :: D) = s :: regTexts D := by
  simp [regTexts]

/-- The run walk of the source, characterised against the spec's grouping: from
accumulators of which at most one is open, the result is the flushed output so
far plus the bold/regular texts of the chunks of the remaining items, with the
open accumulator merged in front. -/
theorem boldLoop_char (m : Nat → Option String) :
    ∀ (items : List (Nat × Run)) (bt rt cb cr : List String), cb = [] ∨ cr = [] →
      boldLoop m items bt rt cb cr =
        (bt ++ boldTexts (optMergeChunk (pendingOf cb cr)
            (segChunks (items.map (fun ir => (ir.2.bold, ir.2.text ++ (m ir.1).getD ""))))),
         rt ++ regTexts (optMergeChunk (pendingOf cb cr)
            (segChunks (items.map (fun ir => (ir.2.bold, ir.2.text ++ (m ir.1).getD "")))))) := by
  intro items
  induction items with
  | nil =>
    intro bt rt cb cr hor
    by_cases hcb : cb = []
    · by_cases hcr : cr = []
      · simp [boldLoop, hcb, hcr, pendingOf, optMergeChunk, segChunks, boldTexts, regTexts]
      · subst hcb
        simp [boldLoop, hcr, pendingOf, optMergeChunk, segChunks, consMergeChunk,
          boldTexts, regTexts]
    · have hcr : cr = [] := by tauto
      subst hcr
      simp [boldLoop, hcb, pendingOf, optMergeChunk, segChunks, consMergeChunk,
        boldTexts, regTexts]
  | cons ir rest ih =>
    intro bt rt cb cr hor
    have hrt : (match m ir.1 with
        | some tok => ir.2.text ++ tok
        | none => ir.2.text) = ir.2.text ++ (m ir.1).getD "" := by
      cases m ir.1 <;> simp
    rw [boldLoop, hrt]
    set t := ir.2.text ++ (m ir.1).getD "" with ht
    have hchunks : segChunks (((ir :: rest).map
        (fun ir => (ir.2.bold, ir.2.text ++ (m ir.1).getD "")))) =
        consMergeChunk (ir.2.bold, t)
          (segChunks (rest.map (fun ir => (ir.2.bold, ir.2.text ++ (m ir.1).getD "")))) := by
      simp [segChunks]
    set C := segChunks (rest.map (fun ir => (ir.2.bold, ir.2.text ++ (m ir.1).getD ""))) with hC
    by_cases hbold : ir.2.bold
    · rw [if_pos hbold]
      by_cases hcr : cr ≠ []
      · have hcb : cb = [] := by tauto
        subst hcb
        rw [if_pos hcr]
        simp only [List.nil_append]
        rw [ih bt (rt ++ [joinStr cr]) [t] [] (Or.inr rfl)]
        have hpend : pendingOf [t] [] = some (true, t) := by
          simp [pendingOf, joinStr]
        have hpend2 : pendingOf [] cr = some (false, joinStr cr) := by
          simp [pendingOf, hcr]
        rw [hchunks, hpend, hpend2, hbold]
        show (bt ++ boldTexts (consMergeChunk (true, t) C),
              rt ++ [joinStr cr] ++ regTexts (consMergeChunk (true, t) C)) =
             (bt ++ boldTexts (consMergeChunk (false, joinStr cr) (consMergeChunk (true, t) C)),
              rt ++ regTexts (consMergeChunk (false, joinStr cr) (consMergeChunk (true, t) C)))
        rw [consMergeChunk_ne_head false true (joinStr cr) t C (by simp)]
        rw [boldTexts_cons_false, regTexts_cons_false]
        simp
      · rw [if_neg hcr]
        have hcr' : cr = [] := by tauto
        subst hcr'
        rw [ih bt rt (cb ++ [t]) [] (Or.inr rfl)]
        have hne : cb ++ [t] ≠ [] := by simp
        have hpend : pendingOf (cb ++ [t]) [] = some (true, joinStr cb ++ t) := by
          simp [pendingOf, hne, joinStr_append_singleton]
        rw [hchunks, hpend, hbold]
        by_cases hcb : cb = []
        · subst hcb
          have hpend2 : pendingOf ([] : List String) [] = none := by simp [pendingOf]
          rw [hpend2]
          show (bt ++ boldTexts (consMergeChunk (true, joinStr [] ++ t) C),
                rt ++ regTexts (consMergeChunk (true, joinStr [] ++ t) C)) =
               (bt ++ boldTexts (consMergeChunk (true, t) C),
                rt ++ regTexts (consMergeChunk (true, t) C))
          rfl
        · have hpend2 : pendingOf cb [] = some (true, joinStr cb) := by
            simp [pendingOf, hcb]
          rw [hpend2]
          show (bt ++ boldTexts (consMergeChunk (true, joinStr cb ++ t) C),
                rt ++ regTexts (consMergeChunk (true, joinStr cb ++ t) C)) =
               (bt ++ boldTexts (consMergeChunk (true, joinStr cb) (consMergeChunk (true, t) C)),
                rt ++ regTexts (consMergeChunk (true, joinStr cb) (consMergeChunk (true, t) C)))
          rw [consMergeChunk_absorb]
    · rw [if_neg hbold]
      have hbold' : ir.2.bold = false := by simpa using hbold
      by_cases hcb : cb ≠ []
      · have hcr : cr = [] := by tauto
        subst hcr
        rw [if_pos hcb]
        simp only [List.nil_append]
        rw [ih (bt ++ [joinStr cb]) rt [] [t] (Or.inl rfl)]
        have hpend : pendingOf [] [t] = some (false, t) := by
          simp [pendingOf, joinStr]
        have hpend2 : pendingOf cb [] = some (true, joinStr cb) := by
          simp [pendingOf, hcb]
        rw [hchunks, hpend, hpend2, hbold']
        show (bt ++ [joinStr cb] ++ boldTexts (consMergeChunk (false, t) C),
              rt ++ regTexts (consMergeChunk (false, t) C)) =
             (bt ++ boldTexts (consMergeChunk (true, joinStr cb) (consMergeChunk (false, t) C)),
              rt ++ regTexts (consMergeChunk (true, joinStr cb) (consMergeChunk (false, t) C)))
        rw [consMergeChunk_ne_head true false (joinStr cb) t C (by simp)]
        rw [boldTexts_cons_true, regTexts_cons_true]
        simp
      · rw [if_neg hcb]
        have hcb' : cb = [] := by tauto
        subst hcb'
        rw [ih bt rt [] (cr ++ [t]) (Or.inl rfl)]
        have hne : cr ++ [t] ≠ [] := by simp
        have hpend : pendingOf ([] : List String) (cr ++ [t]) =
            some (false, joinStr cr ++ t) := by
          simp [pendingOf, hne, joinStr_append_singleton]
        rw [hchunks, hpend, hbold']
        by_cases hcr : cr = []
        · subst hcr
          have hpend2 : pendingOf ([] : List String) [] = none := by simp [pendingOf]
          rw [hpend2]
          show (bt ++ boldTexts (consMergeChunk (false, joinStr [] ++ t) C),
                rt ++ regTexts (consMergeChunk (false, joinStr [] ++ t) C)) =
               (bt ++ boldTexts (consMergeChunk (false, t) C),
                rt ++ regTexts (consMergeChunk (false, t) C))
          rfl
        · have hpend2 : pendingOf ([] : List String) cr = some (false, joinStr cr) := by
            simp [pendingOf, hcr]
          rw [hpend2]
          show (bt ++ boldTexts (consMergeChunk (false, joinStr cr ++ t) C),
                rt ++ regTexts (consMergeChunk (false, joinStr cr ++ t) C)) =
               (bt ++ boldTexts (consMergeChunk (false, joinStr cr) (consMergeChunk (false, t) C)),
                rt ++ regTexts (consMergeChunk (false, joinStr cr) (consMergeChunk (false, t) C)))
          rw [consMergeChunk_absorb]

/-- The paragraph of the C6 counterexample: one bold run carrying two note
references, both of which resolve. -/
def para6 : Paragraph := ⟨[⟨"W", true, [some "1", some "2"], []⟩], false, "Normal", none, none⟩

/-- A table resolving both of `para6`'s references. -/
def fnsC6 : List FRecord := [⟨"1", "a"⟩, ⟨"2", "b"⟩]

/-- A paragraph with runs plain, bold, bold, plain — for the grouping shape. -/
def para6b : Paragraph :=
  ⟨[⟨"a ", false, [], []⟩, ⟨"b", true, [], []⟩, ⟨"c", true, [], []⟩, ⟨"d", false, [], []⟩],
   false, "Normal", none, none⟩

/-- C6 counterexample: the resolver finds both tokens `[fn:1]` and `[fn:2]` on
run 0, but bold segmentation appends only the last one — the bold part is
`"W[fn:2]"`, not the claim's `"W[fn:1][fn:2]"`. -/
theorem c6_multi_ref_counterexample :
    find_footnote_references_in_paragraph fnsC6 para6 = [(0, "[fn:1]"), (0, "[fn:2]")] ∧
    extract_bold_portions_with_footnotes fnsC6 para6 = (["W[fn:2]"], []) ∧
    extract_bold_portions_with_footnotes fnsC6 para6 ≠ (["W[fn:1][fn:2]"], []) :=
  ⟨by decide, by decide, by decide⟩

/-- C6 (amended): bold segmentation equals the spec's grouping of consecutive
same-boldness runs — flushing on every state change and at the end — where
each run's text first receives the token of the *last* reference marker found
for it (a dict keyed by run index keeps only the last token); the plain, bold,
bold, plain example groups as `(["bc"], ["a ", "d"])`, and a reference on a
bold run surfaces inside the bold part. -/
theorem c6_bold_segmentation :
    (∀ (fns : List FRecord) (p : Paragraph),
      extract_bold_portions_with_footnotes fns p = boldSegSpec fns p)
    ∧ extract_bold_portions_with_footnotes [] para6b = (["bc"], ["a ", "d"])
    ∧ extract_bold_portions_with_footnotes fnsC9 para9 = (["World[fn:3]"], ["Hello "]) := by
  refine ⟨?_, by decide, by decide⟩
  intro fns p
  unfold extract_bold_portions_with_footnotes boldSegSpec
  rw [boldLoop_char (dictLast (find_footnote_references_in_paragraph fns p))
    p.runs.enum [] [] [] [] (Or.inl rfl)]
  have hpend : pendingOf ([] : List String) [] = none := by simp [pendingOf]
  rw [hpend]
  simp [optMergeChunk, boldTexts, regTexts]

end DocxOrg
